import Mathlib

/- Verification development for the DP_GP_cluster command-line driver
(src/bin/DP_GP_cluster.py).  The module-level control flow of the script is
embedded as pure Lean functions: argument record, criterion validation,
random seeding, expression-matrix reading, time rescaling, burn-in phase
derivation, the Gibbs-sampler invocation, the selection-criterion dispatch,
the cluster-membership grouping loop, the refit loop and the report calls.
The DP_GP library modules (core, cluster_tools, plot) are not part of the
source tree; they are modelled as opaque external functions gathered in the
Externals structure.  Machine floats are idealised as rationals. -/

namespace DPGP

/-- Modelled from the spec: the global numpy random-number-generator state.
The concrete representation is irrelevant; only identity of states matters. -/
abbrev RngState := Nat

/-- Modelled from the spec: np.random.seed sets the global RNG state to a
value determined by the seed alone (independent of the previous state). -/
def npSeed (seed : Nat) : RngState := seed

/-- A gene-to-cluster assignment vector: one cluster id per gene, in gene
scan order. -/
abbrev Assignment := List Nat

/-- An archive of sampled clusterings, one assignment vector per retained
Gibbs sweep. -/
abbrev Archive := List Assignment

/-- Posterior similarity matrix, row-major. -/
abbrev SimMat := List (List ℚ)

/-- Gene expression matrix, G rows (genes) by T columns (time points). -/
abbrev ExprMatrix := List (List ℚ)

/-- The tuple returned by core.read_gene_expression_matrices (line 292):
expression matrix, gene names, per-gene noise s.d., possibly re-estimated
inverse-gamma shape and rate, and the raw time vector. -/
structure ExprData where
  matrix : ExprMatrix
  geneNames : List String
  sigma_n : List ℚ
  sigma_n2_shape : ℚ
  sigma_n2_rate : ℚ
  t : List ℚ

/-- The tuple returned by GS.sampler() (line 326): similarity matrix, full
assignment history, thinned assignment history, log-likelihood sequence and
final iteration count. -/
structure SamplerOutput where
  simMat : SimMat
  allClusterings : Archive
  sampledClusterings : Archive
  logLikelihoods : List ℚ
  iterNum : Nat

/-- The scalar arguments of the core.gibbs_sampler call (lines 322-324),
together with the RNG state the sampler consumes (the global numpy state at
the moment of the call). -/
structure SamplerArgs where
  maxNumIterations : Nat
  maxIters : Int
  optimizer : String
  burnInI : Nat
  burnInII : Nat
  alpha : ℚ
  m : Int
  s : Int
  checkConvergence : Bool
  lengthScaleMu : ℚ
  lengthScaleSigma : ℚ
  sigmaFMu : ℚ
  sigmaFSigma : ℚ
  sqDistEps : ℚ
  postEps : ℚ
  rng : RngState

/-- The keyword arguments of the core.dp_cluster construction in the refit
loop (line 361). -/
structure DPClusterArgs where
  members : List Nat
  sigma_n : List ℚ
  X : List ℚ
  Y : List (List ℚ)
  iterNumAtBirth : Nat

/-- The scalar arguments of update_cluster_attributes (line 362). -/
structure UpdateArgs where
  sigma_n2_shape : ℚ
  sigma_n2_rate : ℚ
  lengthScaleMu : ℚ
  lengthScaleSigma : ℚ
  sigmaFMu : ℚ
  sigmaFSigma : ℚ
  iterNum : Nat
  maxIters : Int
  optimizer : String

/-- A record of which optimal-clustering selection strategy is invoked and
with which arguments, mirroring the dispatch at lines 338-347. -/
inductive SelectorCall where
  | mpear (archive : Archive) (S : SimMat)
  | map (archive : Archive) (logLikelihoods : List ℚ)
  | leastSquares (archive : Archive) (S : SimMat)
  | hClust (S : SimMat) (linkage : String)

/-- Modelled from the spec: the DP_GP library functions the script calls
(core.read_gene_expression_matrices, core.gibbs_sampler plus GS.sampler,
the cluster_tools selection strategies, core.dp_cluster and
update_cluster_attributes).  These modules are not in the source tree; per
the spec each is a deterministic function of its arguments (the sampler
additionally consumes the global RNG state, carried inside SamplerArgs).
kappa is the type of freshly built GP cluster objects, gamma the type of
refit cluster objects. -/
structure Externals (κ γ : Type) where
  read_gene_expression_matrices : List String → Bool → Bool → ℚ → ℚ → ExprData
  gibbs_sampler : ExprData → SamplerArgs → SamplerOutput
  best_clustering_by_mpear : Archive → SimMat → Assignment
  best_clustering_by_log_likelihood : Archive → List ℚ → Assignment
  best_clustering_by_sq_dist : Archive → SimMat → Assignment
  best_clustering_by_h_clust : SimMat → String → Assignment
  dp_cluster : DPClusterArgs → κ
  update_cluster_attributes : κ → ExprMatrix → UpdateArgs → γ

/-- The observable phases of one run, in the order the script performs
them. -/
inductive Event where
  | seedSet (seed : Nat)
  | readMatrices (paths : List String)
  | runSampler (sa : SamplerArgs)
  | selectClustering (call : SelectorCall)
  | refitAll (clusterIds : List Nat)
  | saveSimMat
  | saveClusterings
  | saveLogLikelihoods
  | saveMembership
  | plotFigures

/-- Numeric tag of an event kind, used to state phase ordering. -/
def eventTag : Event → Nat
  | .seedSet _ => 0
  | .readMatrices _ => 1
  | .runSampler _ => 2
  | .selectClustering _ => 3
  | .refitAll _ => 4
  | .saveSimMat => 5
  | .saveClusterings => 6
  | .saveLogLikelihoods => 7
  | .saveMembership => 8
  | .plotFigures => 9

/-- The values held by the script when it reaches the report section. -/
structure FinalOutputs (γ : Type) where
  simMat : SimMat
  allClusterings : Archive
  sampledClusterings : Archive
  logLikelihoods : List ℚ
  iterNum : Nat
  geneNames : List String
  optimalClusters : Assignment
  optimalClusterLabels : List (Nat × List Nat)
  optimalClusterLabelsNames : List (Nat × List String)
  optimalClustersGP : List (Nat × γ)

/-- How a run of the script terminates: print_help plus exit() (line 272),
an uncaught ValueError (line 280), another uncaught Python error, or normal
completion. -/
inductive RunResult (γ : Type) where
  | helpExit
  | valueError (msg : String)
  | pyError (msg : String)
  | finished (fo : FinalOutputs γ)

/-- The trace of phases performed before termination, and how the run
ended. -/
structure RunOutcome (γ : Type) where
  trace : List Event
  result : RunResult γ

/-- The command-line argument record built by argparse (lines 72-268).
argparse ints for alpha, m, s may be non-positive; max_num_iterations is
modelled over the naturals. -/
structure Args where
  geneExpressionMatrix : Option String
  outputPath : Option String
  maxNumIterations : Nat
  maxIters : Int
  s : Int
  optimizer : String
  alpha : ℚ
  m : Int
  sigma_n2_shape : ℚ
  sigma_n2_rate : ℚ
  lengthScaleMu : ℚ
  lengthScaleSigma : ℚ
  sigmaFMu : ℚ
  sigmaFSigma : ℚ
  checkConvergence : Bool
  plot : Bool
  trueTimes : Bool
  doNotMeanCenter : Bool
  criterion : String

/-- The argparse defaults (lines 136-260): required paths absent, n=1000,
max_iters=1000, s=3, lbfgsb, alpha=1, m=4, shape=12, rate=2, log-normal
(0,1) priors, flags off, criterion MAP. -/
def defaultArgs : Args where
  geneExpressionMatrix := none
  outputPath := none
  maxNumIterations := 1000
  maxIters := 1000
  s := 3
  optimizer := "lbfgsb"
  alpha := 1
  m := 4
  sigma_n2_shape := 12
  sigma_n2_rate := 2
  lengthScaleMu := 0
  lengthScaleSigma := 1
  sigmaFMu := 0
  sigmaFSigma := 1
  checkConvergence := false
  plot := false
  trueTimes := false
  doNotMeanCenter := false
  criterion := "MAP"

/-- The accepted selection-criterion names, in the order of line 279. -/
def validCriteria : List String :=
  ["MAP", "MPEAR", "least_squares", "h_clust_avg", "h_clust_comp"]

/-- The ValueError message raised at lines 280-281. -/
def invalidCriterionMsg : String :=
  "incorrect criterion. Please choose from among the following options: MPEAR, MAP, least_squares, h_clust_avg, h_clust_comp"

/-- np.diff: successive differences of a vector. -/
def npDiff (t : List ℚ) : List ℚ :=
  (t.zip t.tail).map fun p => p.2 - p.1

/-- np.mean of a vector (0 on the empty vector, as 0/0 = 0 in ℚ). -/
def listMean (xs : List ℚ) : ℚ := xs.sum / (xs.length : ℚ)

/-- Line 297: t /= np.mean(np.diff(t)). -/
def rescaleTime (t : List ℚ) : List ℚ :=
  t.map fun x => x / listMean (npDiff t)

/-- Line 306: burnIn_phaseI = int(np.floor(max_num_iterations/5) * 1.2),
with Python-2 integer division for n/5 and int() truncation (equal to the
floor on a non-negative value). -/
def burnInPhaseI (n : Nat) : Nat :=
  (⌊((n / 5 : Nat) : ℚ) * (12 / 10)⌋).toNat

/-- Line 308: burnIn_phaseII = burnIn_phaseI * 2. -/
def burnInPhaseII (n : Nat) : Nat := burnInPhaseI n * 2

/-- Line 314: sq_dist_eps, post_eps = 0.01, 1e-5. -/
def sqDistEps : ℚ := 1 / 100

/-- Line 314: the posterior log-likelihood convergence epsilon. -/
def postEps : ℚ := 1 / 100000

/-- The criterion dispatch of lines 338-347, recorded as which
cluster_tools strategy is invoked with which arguments.  An if/elif chain
over the criterion string; none when no branch matches (then
optimal_clusters would stay unassigned). -/
def selectorCall (criterion : String) (archive : Archive) (logLikelihoods : List ℚ)
    (S : SimMat) : Option SelectorCall :=
  if criterion = "MPEAR" then some (.mpear archive S)
  else if criterion = "MAP" then some (.map archive logLikelihoods)
  else if criterion = "least_squares" then some (.leastSquares archive S)
  else if criterion = "h_clust_avg" then some (.hClust S "average")
  else if criterion = "h_clust_comp" then some (.hClust S "complete")
  else none

/-- Execute a recorded strategy invocation against the external
cluster_tools functions, producing the one selected assignment vector. -/
def runSelector {κ γ : Type} (ext : Externals κ γ) : SelectorCall → Assignment
  | .mpear archive S => ext.best_clustering_by_mpear archive S
  | .map archive ll => ext.best_clustering_by_log_likelihood archive ll
  | .leastSquares archive S => ext.best_clustering_by_sq_dist archive S
  | .hClust S linkage => ext.best_clustering_by_h_clust S linkage

/-- One step of the defaultdict(list) append of lines 353-357: append g to
the list of key c, creating the entry at the end if absent. -/
def addToGroup {β : Type} (acc : List (Nat × List β)) (c : Nat) (g : β) :
    List (Nat × List β) :=
  match acc with
  | [] => [(c, [g])]
  | p :: rest => if p.1 = c then (p.1, p.2 ++ [g]) :: rest else p :: addToGroup rest c g

/-- Fold of addToGroup over a list of (cluster, value) pairs in scan
order. -/
def groupPairsAux {β : Type} : List (Nat × β) → List (Nat × List β) → List (Nat × List β)
  | [], acc => acc
  | (c, g) :: rest, acc => groupPairsAux rest (addToGroup acc c g)

/-- Group a list of (cluster, value) pairs into an association list from
cluster id to the list of its values in scan order. -/
def groupPairs {β : Type} (rows : List (Nat × β)) : List (Nat × List β) :=
  groupPairsAux rows []

/-- The optimal_cluster_labels dict of lines 353-356: gene indices (the
enumerate counter over zip(gene_names, optimal_clusters)) grouped by
selected cluster id. -/
def optimal_cluster_labels (geneNames : List String) (clusters : Assignment) :
    List (Nat × List Nat) :=
  groupPairs (((geneNames.zip clusters).map Prod.snd).enum.map fun p => (p.2, p.1))

/-- The optimal_cluster_labels_original_gene_names dict of lines 354-357:
gene names grouped by selected cluster id. -/
def optimal_cluster_labels_names (geneNames : List String) (clusters : Assignment) :
    List (Nat × List String) :=
  groupPairs ((geneNames.zip clusters).map fun p => (p.2, p.1))

/-- Lookup of a cluster id in an association list (the dict access
pattern of the refit loop). -/
def lookupKey {β : Type} (c : Nat) : List (Nat × β) → Option β
  | [] => none
  | p :: rest => if p.1 = c then some p.2 else lookupKey c rest

/-- The keys of an association list, in entry order. -/
def keysOf {β : Type} (l : List (Nat × β)) : List Nat := l.map Prod.fst

/-- The gene indices carrying cluster id c in the assignment list cl, with
indices starting at j.  Closed form of what the grouping loop collects for
one cluster id. -/
def membersFrom (c : Nat) : Nat → List Nat → List Nat
  | _, [] => []
  | j, c0 :: rest => if c0 = c then j :: membersFrom c (j + 1) rest else membersFrom c (j + 1) rest

/-- The values attached to key c in a row list, in scan order. -/
def valuesFor {β : Type} (c : Nat) : List (Nat × β) → List β
  | [] => []
  | p :: rest => if p.1 = c then p.2 :: valuesFor c rest else valuesFor c rest

/-- gene_expression_matrix[genes,:] — the selected rows of the expression
matrix, in member order. -/
def selectRows (m : ExprMatrix) (genes : List Nat) : ExprMatrix :=
  genes.map fun g => m.getD g []

/-- The scalar arguments handed to update_cluster_attributes in the refit
loop (line 362). -/
def mkUpdateArgs (args : Args) (d : ExprData) (iterNum : Nat) : UpdateArgs where
  sigma_n2_shape := d.sigma_n2_shape
  sigma_n2_rate := d.sigma_n2_rate
  lengthScaleMu := args.lengthScaleMu
  lengthScaleSigma := args.lengthScaleSigma
  sigmaFMu := args.sigmaFMu
  sigmaFSigma := args.sigmaFSigma
  iterNum := iterNum
  maxIters := args.maxIters
  optimizer := args.optimizer

/-- The refit loop of lines 359-362: for every entry of the grouping dict,
build a fresh dp_cluster from that membership (X = the rescaled time
column, Y = the transposed member rows) and apply update_cluster_attributes
to it exactly once; collect the results keyed by cluster id. -/
def refitClusters {κ γ : Type} (ext : Externals κ γ) (labels : List (Nat × List Nat))
    (d : ExprData) (t : List ℚ) (iterNum : Nat) (u : UpdateArgs) : List (Nat × γ) :=
  labels.map fun p =>
    (p.1, ext.update_cluster_attributes
      (ext.dp_cluster ⟨p.2, d.sigma_n, t, (selectRows d.matrix p.2).transpose, iterNum⟩)
      d.matrix u)

/-- The argument record of the core.gibbs_sampler call (lines 322-324),
including the RNG state the sampler consumes. -/
def mkSamplerArgs (args : Args) (rng : RngState) : SamplerArgs where
  maxNumIterations := args.maxNumIterations
  maxIters := args.maxIters
  optimizer := args.optimizer
  burnInI := burnInPhaseI args.maxNumIterations
  burnInII := burnInPhaseII args.maxNumIterations
  alpha := args.alpha
  m := args.m
  s := args.s
  checkConvergence := args.checkConvergence
  lengthScaleMu := args.lengthScaleMu
  lengthScaleSigma := args.lengthScaleSigma
  sigmaFMu := args.sigmaFMu
  sigmaFSigma := args.sigmaFSigma
  sqDistEps := sqDistEps
  postEps := postEps
  rng := rng

/-- The core.read_gene_expression_matrices call of lines 292-293. -/
def readData {κ γ : Type} (ext : Externals κ γ) (args : Args) (inputArg : String) : ExprData :=
  ext.read_gene_expression_matrices (inputArg.splitOn ",") args.trueTimes
    args.doNotMeanCenter args.sigma_n2_shape args.sigma_n2_rate

/-- The module-level flow of DP_GP_cluster.py after argparse (lines
268-388): required-argument check, criterion validation, seeding, data
read, time rescaling, burn-in derivation, sampler run, selection dispatch,
grouping, refit, report calls and the optional plot section.  rng0 is the
ambient numpy RNG state when the script starts. -/
def runScript {κ γ : Type} (ext : Externals κ γ) (args : Args) (_rng0 : RngState) :
    RunOutcome γ :=
  match args.geneExpressionMatrix, args.outputPath with
  | none, _ => ⟨[], .helpExit⟩
  | _, none => ⟨[], .helpExit⟩
  | some inputArg, some _outputPath =>
    if args.criterion ∉ validCriteria then
      ⟨[], .valueError invalidCriterionMsg⟩
    else
      let rng1 : RngState := npSeed 1234
      let d := readData ext args inputArg
      let d2 : ExprData := { d with t := rescaleTime d.t }
      let sargs := mkSamplerArgs args rng1
      let gs := ext.gibbs_sampler d2 sargs
      match selectorCall args.criterion gs.sampledClusterings gs.logLikelihoods gs.simMat with
      | none =>
        ⟨[.seedSet 1234, .readMatrices (inputArg.splitOn ","), .runSampler sargs],
         .pyError "NameError: optimal_clusters is not assigned"⟩
      | some call =>
        let optimalClusters := runSelector ext call
        let labels := optimal_cluster_labels d.geneNames optimalClusters
        let labelsNames := optimal_cluster_labels_names d.geneNames optimalClusters
        let gp := refitClusters ext labels d d2.t gs.iterNum (mkUpdateArgs args d gs.iterNum)
        ⟨[.seedSet 1234, .readMatrices (inputArg.splitOn ","), .runSampler sargs,
          .selectClustering call, .refitAll (keysOf labels),
          .saveSimMat, .saveClusterings, .saveLogLikelihoods, .saveMembership]
           ++ (if args.plot then [.plotFigures] else []),
         .finished ⟨gs.simMat, gs.allClusterings, gs.sampledClusterings, gs.logLikelihoods,
           gs.iterNum, d.geneNames, optimalClusters, labels, labelsNames, gp⟩⟩

/-- The sampler invocations recorded in a trace, with their arguments. -/
def samplerEvents (tr : List Event) : List SamplerArgs :=
  tr.filterMap fun e =>
    match e with
    | .runSampler sa => some sa
    | _ => none

/-- Whether a run result is the uncaught ValueError of the configuration
check. -/
def isValueError {γ : Type} : RunResult γ → Bool
  | .valueError _ => true
  | _ => false

/-- Whether a run result is normal completion of the report section. -/
def isFinished {γ : Type} : RunResult γ → Bool
  | .finished _ => true
  | _ => false

/-- A trivial instantiation of the external modules, used to evaluate the
pipeline on concrete configurations. -/
def extUnit : Externals Unit Unit where
  read_gene_expression_matrices := fun _ _ _ _ _ => ⟨[], [], [], 0, 0, []⟩
  gibbs_sampler := fun _ _ => ⟨[], [], [], [], 0⟩
  best_clustering_by_mpear := fun _ _ => []
  best_clustering_by_log_likelihood := fun _ _ => []
  best_clustering_by_sq_dist := fun _ _ => []
  best_clustering_by_h_clust := fun _ _ => []
  dp_cluster := fun _ => ()
  update_cluster_attributes := fun _ _ _ => ()

/-- An empty expression-data record, for concrete witnesses. -/
def emptyData : ExprData := ⟨[], [], [], 0, 0, []⟩

/-- A concrete invalid configuration: valid criterion but alpha = -1,
m = 0, s = 0, required paths present. -/
def badParamArgs : Args :=
  { defaultArgs with
    geneExpressionMatrix := some "in.txt"
    outputPath := some "out"
    alpha := -1
    m := 0
    s := 0 }

/-- A concrete well-formed configuration: required paths present, all other
arguments at their argparse defaults. -/
def okArgs : Args :=
  { defaultArgs with
    geneExpressionMatrix := some "in.txt"
    outputPath := some "out" }

/-- A concrete configuration whose criterion string is outside the accepted
list (lowercase variant). -/
def badCriterionArgs : Args := { okArgs with criterion := "map" }

/-- A concrete configuration whose optimizer string is outside the four
documented choices. -/
def oddOptimizerArgs : Args := { okArgs with optimizer := "not_a_method" }

/- Shared lemmas about the pipeline control flow. -/

lemma samplerEvents_cases {κ γ : Type} (ext : Externals κ γ) (args : Args) (rng : RngState) :
    samplerEvents (runScript ext args rng).trace = [] ∨
    samplerEvents (runScript ext args rng).trace = [mkSamplerArgs args (npSeed 1234)] := by
  rcases hg : args.geneExpressionMatrix with _ | inputArg
  · left
    simp [runScript, hg, samplerEvents]
  rcases ho : args.outputPath with _ | outPath
  · left
    simp [runScript, hg, ho, samplerEvents]
  by_cases hc : args.criterion ∉ validCriteria
  · left
    simp only [runScript, hg, ho]
    rw [if_pos hc]
    rfl
  · right
    simp only [runScript, hg, ho]
    rw [if_neg hc]
    split
    · rfl
    · rcases hp : args.plot <;> simp [samplerEvents, hp]

lemma runScript_valid_shape {κ γ : Type} (ext : Externals κ γ) (args : Args) (rng : RngState)
    (inputArg outPath : String)
    (hin : args.geneExpressionMatrix = some inputArg)
    (hout : args.outputPath = some outPath)
    (hc : args.criterion ∈ validCriteria) :
    samplerEvents (runScript ext args rng).trace = [mkSamplerArgs args (npSeed 1234)] ∧
    isValueError (runScript ext args rng).result = false := by
  simp only [runScript, hin, hout]
  rw [if_neg (not_not_intro hc)]
  split
  · exact ⟨rfl, rfl⟩
  · refine ⟨?_, rfl⟩
    rcases hp : args.plot <;>
      simp [samplerEvents, hp, List.filterMap_append, List.filterMap_cons]

/-- C1: a selection-criterion string outside the five accepted names makes
the script raise the ValueError of lines 280-281 before anything else
happens: the outcome is the configuration error and the trace is empty, so
the expression matrix is never read, the Gibbs sampler is never constructed
or run, and no output file is written. -/
theorem c1_invalid_criterion_fails_first {κ γ : Type} (ext : Externals κ γ) (args : Args)
    (rng : RngState) (inputArg outPath : String)
    (hin : args.geneExpressionMatrix = some inputArg)
    (hout : args.outputPath = some outPath)
    (hc : args.criterion ∉ validCriteria) :
    (runScript ext args rng).result = RunResult.valueError invalidCriterionMsg ∧
    (runScript ext args rng).trace = [] := by
  simp only [runScript, hin, hout]
  rw [if_pos hc]
  exact ⟨rfl, rfl⟩

theorem c1_witness :
    (badCriterionArgs.criterion ∉ validCriteria) ∧
    ((runScript extUnit badCriterionArgs 0).result = RunResult.valueError invalidCriterionMsg ∧
     (runScript extUnit badCriterionArgs 0).trace = []) :=
  ⟨by decide, c1_invalid_criterion_fails_first extUnit badCriterionArgs 0 "in.txt" "out" rfl rfl
    (by decide)⟩

/-- C2 counterexample: with a valid criterion but alpha = -1, m = 0, s = 0,
the script raises no configuration error before sampling; the Gibbs sampler
is invoked (exactly one sampler event occurs) and the run does not end in a
ValueError, contradicting the claim that such configurations fail before
any sampling starts. -/
theorem c2_counterexample :
    (badParamArgs.alpha ≤ 0 ∧ badParamArgs.m < 1 ∧ badParamArgs.s < 1) ∧
    (samplerEvents (runScript extUnit badParamArgs 0).trace).length = 1 ∧
    isValueError (runScript extUnit badParamArgs 0).result = false :=
  ⟨by decide, rfl, rfl⟩

/-- C2 amended: non-positive alpha, m < 1 and s < 1 are not validated
before the run.  For every configuration with required paths and an
accepted criterion — in particular one with alpha ≤ 0 or m < 1 or s < 1 —
no configuration error is raised and the Gibbs sampler is invoked exactly
once, receiving alpha, m and s unchanged. -/
theorem c2_bad_params_reach_sampler {κ γ : Type} (ext : Externals κ γ) (args : Args)
    (rng : RngState) (inputArg outPath : String)
    (hin : args.geneExpressionMatrix = some inputArg)
    (hout : args.outputPath = some outPath)
    (hc : args.criterion ∈ validCriteria)
    (_hbad : args.alpha ≤ 0 ∨ args.m < 1 ∨ args.s < 1) :
    isValueError (runScript ext args rng).result = false ∧
    (samplerEvents (runScript ext args rng).trace).map (fun sa => (sa.alpha, sa.m, sa.s)) =
      [(args.alpha, args.m, args.s)] := by
  obtain ⟨h1, h2⟩ := runScript_valid_shape ext args rng inputArg outPath hin hout hc
  exact ⟨h2, by rw [h1]; rfl⟩

theorem c2_witness :
    (badParamArgs.criterion ∈ validCriteria) ∧
    (badParamArgs.alpha ≤ 0 ∨ badParamArgs.m < 1 ∨ badParamArgs.s < 1) ∧
    (isValueError (runScript extUnit badParamArgs 0).result = false ∧
     (samplerEvents (runScript extUnit badParamArgs 0).trace).map
        (fun sa => (sa.alpha, sa.m, sa.s)) =
       [(badParamArgs.alpha, badParamArgs.m, badParamArgs.s)]) :=
  ⟨by decide, by decide,
   c2_bad_params_reach_sampler extUnit badParamArgs 0 "in.txt" "out" rfl rfl (by decide)
     (by decide)⟩

/-- C3: the pipeline outcome is a deterministic function of the external
inputs and the argument record.  Two runs that differ only in the ambient
numpy RNG state produce identical outcomes (the seed is set to 1234 before
any data is read), and every Gibbs-sampler invocation consumes exactly the
freshly seeded state npSeed 1234, never the ambient one — so assignment
histories and the similarity matrix coincide across independent runs. -/
theorem c3_deterministic_pipeline {κ γ : Type} (ext : Externals κ γ) (args : Args)
    (rng rng2 : RngState) :
    runScript ext args rng = runScript ext args rng2 ∧
    ∀ sa ∈ samplerEvents (runScript ext args rng).trace, sa.rng = npSeed 1234 := by
  refine ⟨rfl, ?_⟩
  intro sa hsa
  rcases samplerEvents_cases ext args rng with h | h
  · rw [h] at hsa
    cases hsa
  · rw [h] at hsa
    simp only [List.mem_singleton] at hsa
    subst hsa
    rfl

/-- C9: the optimizer string is never validated before the run.  Whatever
string --optimizer carries (including strings outside lbfgsb, fmin_tnc,
simplex, scg), a configuration with required paths and an accepted
criterion raises no pre-run error and invokes the Gibbs sampler exactly
once, with the optimizer string passed through unchanged. -/
theorem c9_optimizer_not_validated {κ γ : Type} (ext : Externals κ γ) (args : Args)
    (rng : RngState) (inputArg outPath : String)
    (hin : args.geneExpressionMatrix = some inputArg)
    (hout : args.outputPath = some outPath)
    (hc : args.criterion ∈ validCriteria) :
    (samplerEvents (runScript ext args rng).trace).map (fun sa => sa.optimizer) =
      [args.optimizer] ∧
    isValueError (runScript ext args rng).result = false := by
  obtain ⟨h1, h2⟩ := runScript_valid_shape ext args rng inputArg outPath hin hout hc
  exact ⟨by rw [h1]; rfl, h2⟩

lemma selectorCall_ne_none {c : String} (hc : c ∈ validCriteria) {a : Archive}
    {ll : List ℚ} {S : SimMat} : selectorCall c a ll S ≠ none := by
  simp only [validCriteria, List.mem_cons, List.not_mem_nil, or_false] at hc
  rcases hc with rfl | rfl | rfl | rfl | rfl <;> simp [selectorCall]

/-- C5: the selection-criterion dispatch of lines 338-347 is mutually
exclusive and exhaustive over the five accepted names, and each branch
consumes exactly its documented inputs: MAP the thinned archive and the
log-likelihood sequence, MPEAR and least_squares the archive and S,
h_clust_avg and h_clust_comp only S with average or complete linkage; the
recorded call is then executed by runSelector, producing one assignment
vector.  Outside the accepted names no strategy is invoked. -/
theorem c5_selector_dispatch (a : Archive) (ll : List ℚ) (S : SimMat) :
    selectorCall "MPEAR" a ll S = some (SelectorCall.mpear a S) ∧
    selectorCall "MAP" a ll S = some (SelectorCall.map a ll) ∧
    selectorCall "least_squares" a ll S = some (SelectorCall.leastSquares a S) ∧
    selectorCall "h_clust_avg" a ll S = some (SelectorCall.hClust S "average") ∧
    selectorCall "h_clust_comp" a ll S = some (SelectorCall.hClust S "complete") ∧
    ∀ c : String, c ∉ validCriteria → selectorCall c a ll S = none := by
  refine ⟨rfl, rfl, rfl, rfl, rfl, ?_⟩
  intro c hcnot
  simp only [validCriteria, List.mem_cons, List.not_mem_nil, or_false, not_or] at hcnot
  obtain ⟨h1, h2, h3, h4, h5⟩ := hcnot
  simp [selectorCall, h1, h2, h3, h4, h5]

/-- C7: with required paths and an accepted criterion, the phases execute
in the fixed order of the script and each occurs exactly once: seed, read
the input design, run the Gibbs sampler, select the optimal clustering,
refit the selected clusters, and only then write the four output files
(similarity matrix, clusterings, log-likelihoods, optimal membership),
optionally followed by plotting; the run completes normally. -/
theorem c7_phase_order {κ γ : Type} (ext : Externals κ γ) (args : Args) (rng : RngState)
    (inputArg outPath : String)
    (hin : args.geneExpressionMatrix = some inputArg)
    (hout : args.outputPath = some outPath)
    (hc : args.criterion ∈ validCriteria) :
    (runScript ext args rng).trace.map eventTag =
      [0, 1, 2, 3, 4, 5, 6, 7, 8] ++ (if args.plot then [9] else []) ∧
    isFinished (runScript ext args rng).result = true := by
  simp only [runScript, hin, hout]
  rw [if_neg (not_not_intro hc)]
  split
  · rename_i heq
    exact absurd heq (selectorCall_ne_none hc)
  · refine ⟨?_, rfl⟩
    rcases hp : args.plot <;> simp [eventTag, hp]

theorem c7_witness :
    (okArgs.criterion ∈ validCriteria) ∧
    ((runScript extUnit okArgs 0).trace.map eventTag =
        [0, 1, 2, 3, 4, 5, 6, 7, 8] ++ (if okArgs.plot then [9] else []) ∧
     isFinished (runScript extUnit okArgs 0).result = true) :=
  ⟨by decide, c7_phase_order extUnit okArgs 0 "in.txt" "out" rfl rfl (by decide)⟩

theorem c9_witness :
    (oddOptimizerArgs.criterion ∈ validCriteria) ∧
    ((samplerEvents (runScript extUnit oddOptimizerArgs 0).trace).map
        (fun sa => sa.optimizer) = [oddOptimizerArgs.optimizer] ∧
     isValueError (runScript extUnit oddOptimizerArgs 0).result = false) :=
  ⟨by decide, c9_optimizer_not_validated extUnit oddOptimizerArgs 0 "in.txt" "out" rfl rfl
    (by decide)⟩

/- Lemmas about the time rescaling of line 297. -/

lemma sum_map_div (xs : List ℚ) (c : ℚ) :
    (xs.map fun x => x / c).sum = xs.sum / c := by
  induction xs with
  | nil => simp
  | cons x xs ih => simp [ih, add_div]

lemma zip_tail_lt_of_chain' {t : List ℚ} (h : List.Chain' (· < ·) t) :
    ∀ p ∈ t.zip t.tail, p.1 < p.2 := by
  induction t with
  | nil => simp
  | cons x rest ih =>
    cases rest with
    | nil => simp
    | cons y r =>
      rw [List.chain'_cons] at h
      intro p hp
      rw [show (x :: y :: r).zip (x :: y :: r).tail = (x, y) :: ((y :: r).zip r) from rfl,
        List.mem_cons] at hp
      rcases hp with rfl | hp
      · exact h.1
      · exact ih h.2 p hp

lemma npDiff_pos {t : List ℚ} (h : List.Chain' (· < ·) t) :
    ∀ d ∈ npDiff t, 0 < d := by
  intro d hd
  rw [npDiff, List.mem_map] at hd
  obtain ⟨p, hp, rfl⟩ := hd
  exact sub_pos.mpr (zip_tail_lt_of_chain' h p hp)

lemma npDiff_length (t : List ℚ) : (npDiff t).length = t.length - 1 := by
  simp [npDiff, List.length_zip, List.length_tail]

lemma listMean_npDiff_pos {t : List ℚ} (hlen : 2 ≤ t.length)
    (h : List.Chain' (· < ·) t) : 0 < listMean (npDiff t) := by
  have hne : npDiff t ≠ [] := by
    intro hnil
    have := npDiff_length t
    rw [hnil] at this
    simp at this
    omega
  apply div_pos
  · exact List.sum_pos _ (npDiff_pos h) hne
  · have : 0 < (npDiff t).length := List.length_pos.mpr hne
    exact_mod_cast this

lemma npDiff_map_div (t : List ℚ) (c : ℚ) :
    npDiff (t.map fun x => x / c) = (npDiff t).map fun x => x / c := by
  unfold npDiff
  rw [show (t.map fun x => x / c).tail = t.tail.map fun x => x / c from by
      rw [List.map_tail],
    List.zip_map, List.map_map, List.map_map]
  apply List.map_congr_left
  intro p _
  simp [Function.comp, sub_div]

lemma npDiff_rescale (t : List ℚ) :
    npDiff (rescaleTime t) = (npDiff t).map fun x => x / listMean (npDiff t) :=
  npDiff_map_div t _

/-- C4: dividing a strictly increasing time vector of length at least two
by the mean of its successive differences (line 297) yields a vector whose
mean spacing is exactly one unit and which is still strictly increasing. -/
theorem c4_time_rescaling (t : List ℚ) (hlen : 2 ≤ t.length)
    (hmono : List.Chain' (· < ·) t) :
    listMean (npDiff (rescaleTime t)) = 1 ∧
    List.Chain' (· < ·) (rescaleTime t) := by
  have hpos := listMean_npDiff_pos hlen hmono
  have hne : listMean (npDiff t) ≠ 0 := ne_of_gt hpos
  constructor
  · rw [npDiff_rescale, listMean, sum_map_div, List.length_map, div_right_comm]
    rw [show (npDiff t).sum / ((npDiff t).length : ℚ) = listMean (npDiff t) from rfl]
    exact div_self hne
  · rw [rescaleTime, List.chain'_map]
    exact hmono.imp fun a b hab => (div_lt_div_iff_of_pos_right hpos).mpr hab

theorem c4_witness :
    2 ≤ ([0, 1, 3] : List ℚ).length ∧
    (listMean (npDiff (rescaleTime ([0, 1, 3] : List ℚ))) = 1 ∧
     List.Chain' (· < ·) (rescaleTime ([0, 1, 3] : List ℚ))) :=
  ⟨by decide, c4_time_rescaling [0, 1, 3] (by decide)
    (List.chain'_cons.mpr ⟨by decide, List.chain'_cons.mpr ⟨by decide,
      List.chain'_singleton (3 : ℚ)⟩⟩)⟩

/-- C8: for every natural iteration budget n, burn-in phase I equals
int(floor(n/5) * 1.2) = 6*(n/5)/5, phase II equals twice phase I, and
0 ≤ phase I ≤ phase II ≤ n, so the burn-in phases can never exceed the
iteration budget and that configuration-error condition is unreachable. -/
theorem c8_burn_in_bounds (n : ℕ) :
    burnInPhaseI n = 6 * (n / 5) / 5 ∧
    burnInPhaseII n = 2 * burnInPhaseI n ∧
    burnInPhaseI n ≤ burnInPhaseII n ∧ burnInPhaseII n ≤ n := by
  have key : burnInPhaseI n = 6 * (n / 5) / 5 := by
    unfold burnInPhaseI
    have h1 : ((n / 5 : ℕ) : ℚ) * (12 / 10) = ((6 * (n / 5) : ℕ) : ℚ) / ((5 : ℕ) : ℚ) := by
      push_cast
      ring
    rw [h1, Int.floor_toNat, Nat.floor_div_nat, Nat.floor_natCast]
  refine ⟨key, ?_, ?_, ?_⟩ <;> unfold burnInPhaseII <;> rw [key] <;> omega

/- Lemmas about the defaultdict grouping of lines 353-357. -/

lemma lookupKey_addToGroup_self {β : Type} (acc : List (Nat × List β)) (c : Nat) (g : β) :
    lookupKey c (addToGroup acc c g) = some ((lookupKey c acc).getD [] ++ [g]) := by
  induction acc with
  | nil => simp [addToGroup, lookupKey]
  | cons p rest ih =>
    obtain ⟨pk, pv⟩ := p
    by_cases h : pk = c
    · subst h
      simp [addToGroup, lookupKey]
    · simp [addToGroup, lookupKey, h, ih]

lemma lookupKey_addToGroup_ne {β : Type} (acc : List (Nat × List β)) (c c2 : Nat) (g : β)
    (h : c2 ≠ c) : lookupKey c2 (addToGroup acc c g) = lookupKey c2 acc := by
  induction acc with
  | nil => simp [addToGroup, lookupKey, Ne.symm h]
  | cons p rest ih =>
    obtain ⟨pk, pv⟩ := p
    by_cases hp : pk = c
    · subst hp
      simp [addToGroup, lookupKey, Ne.symm h]
    · simp [addToGroup, lookupKey, hp, ih]

lemma mem_keysOf_addToGroup {β : Type} (acc : List (Nat × List β)) (c : Nat) (g : β)
    (c2 : Nat) : c2 ∈ keysOf (addToGroup acc c g) ↔ c2 ∈ keysOf acc ∨ c2 = c := by
  induction acc with
  | nil => simp [addToGroup, keysOf]
  | cons p rest ih =>
    obtain ⟨pk, pv⟩ := p
    by_cases hp : pk = c
    · subst hp
      simp [addToGroup, keysOf]
      tauto
    · simp [addToGroup, hp, keysOf] at ih ⊢
      tauto

lemma nodup_keysOf_addToGroup {β : Type} (acc : List (Nat × List β)) (c : Nat) (g : β)
    (h : (keysOf acc).Nodup) : (keysOf (addToGroup acc c g)).Nodup := by
  induction acc with
  | nil => simp [addToGroup, keysOf]
  | cons p rest ih =>
    obtain ⟨pk, pv⟩ := p
    rw [keysOf, List.map_cons, List.nodup_cons] at h
    by_cases hp : pk = c
    · subst hp
      rw [addToGroup, if_pos rfl, keysOf, List.map_cons, List.nodup_cons]
      exact ⟨h.1, h.2⟩
    · rw [addToGroup, if_neg hp, keysOf, List.map_cons, List.nodup_cons]
      refine ⟨?_, ih h.2⟩
      rw [show List.map Prod.fst (addToGroup rest c g) = keysOf (addToGroup rest c g) from rfl,
        mem_keysOf_addToGroup]
      push_neg
      exact ⟨h.1, hp⟩

lemma lookupKey_groupPairsAux_some {β : Type} (rows : List (Nat × β)) :
    ∀ (acc : List (Nat × List β)) (c : Nat) (l : List β), lookupKey c acc = some l →
      lookupKey c (groupPairsAux rows acc) = some (l ++ valuesFor c rows) := by
  induction rows with
  | nil =>
    intro acc c l h
    simp [groupPairsAux, valuesFor, h]
  | cons r rest ih =>
    obtain ⟨rc, rg⟩ := r
    intro acc c l h
    by_cases hrc : rc = c
    · subst hrc
      have h2 : lookupKey rc (addToGroup acc rc rg) = some (l ++ [rg]) := by
        rw [lookupKey_addToGroup_self, h]
        rfl
      rw [groupPairsAux, ih _ _ _ h2]
      simp [valuesFor]
    · have h2 : lookupKey c (addToGroup acc rc rg) = some l := by
        rw [lookupKey_addToGroup_ne _ _ _ _ (Ne.symm hrc), h]
      rw [groupPairsAux, ih _ _ _ h2]
      simp [valuesFor, hrc]

lemma lookupKey_groupPairsAux_none {β : Type} (rows : List (Nat × β)) :
    ∀ (acc : List (Nat × List β)) (c : Nat), lookupKey c acc = none →
      lookupKey c (groupPairsAux rows acc) =
        if c ∈ rows.map Prod.fst then some (valuesFor c rows) else none := by
  induction rows with
  | nil =>
    intro acc c h
    simp [groupPairsAux, h]
  | cons r rest ih =>
    obtain ⟨rc, rg⟩ := r
    intro acc c h
    by_cases hrc : rc = c
    · subst hrc
      have h2 : lookupKey rc (addToGroup acc rc rg) = some [rg] := by
        rw [lookupKey_addToGroup_self, h]
        rfl
      rw [groupPairsAux, lookupKey_groupPairsAux_some rest _ _ _ h2]
      simp [valuesFor]
    · have h2 : lookupKey c (addToGroup acc rc rg) = none := by
        rw [lookupKey_addToGroup_ne _ _ _ _ (Ne.symm hrc), h]
      rw [groupPairsAux, ih _ _ h2,
        show valuesFor c ((rc, rg) :: rest) = valuesFor c rest from by
          rw [valuesFor, if_neg hrc],
        List.map_cons]
      exact (if_congr (by rw [List.mem_cons]; exact or_iff_right (Ne.symm hrc)) rfl rfl).symm

lemma mem_keysOf_groupPairsAux {β : Type} (rows : List (Nat × β)) :
    ∀ (acc : List (Nat × List β)) (c : Nat),
      c ∈ keysOf (groupPairsAux rows acc) ↔ c ∈ keysOf acc ∨ c ∈ rows.map Prod.fst := by
  induction rows with
  | nil =>
    intro acc c
    simp [groupPairsAux]
  | cons r rest ih =>
    obtain ⟨rc, rg⟩ := r
    intro acc c
    rw [groupPairsAux, ih, mem_keysOf_addToGroup]
    simp only [List.map_cons, List.mem_cons]
    tauto

lemma nodup_keysOf_groupPairsAux {β : Type} (rows : List (Nat × β)) :
    ∀ acc : List (Nat × List β), (keysOf acc).Nodup →
      (keysOf (groupPairsAux rows acc)).Nodup := by
  induction rows with
  | nil => exact fun acc h => h
  | cons r rest ih =>
    obtain ⟨rc, rg⟩ := r
    intro acc h
    exact ih _ (nodup_keysOf_addToGroup _ _ _ h)

lemma lenSum_addToGroup {β : Type} (acc : List (Nat × List β)) (c : Nat) (g : β) :
    ((addToGroup acc c g).map fun p => p.2.length).sum =
      ((acc.map fun p => p.2.length).sum) + 1 := by
  induction acc with
  | nil => simp [addToGroup]
  | cons p rest ih =>
    obtain ⟨pk, pv⟩ := p
    by_cases hp : pk = c
    · subst hp
      simp [addToGroup]
      omega
    · simp [addToGroup, hp, ih]
      omega

lemma lenSum_groupPairsAux {β : Type} (rows : List (Nat × β)) :
    ∀ acc : List (Nat × List β),
      ((groupPairsAux rows acc).map fun p => p.2.length).sum =
        ((acc.map fun p => p.2.length).sum) + rows.length := by
  induction rows with
  | nil =>
    intro acc
    simp [groupPairsAux]
  | cons r rest ih =>
    obtain ⟨rc, rg⟩ := r
    intro acc
    rw [groupPairsAux, ih, lenSum_addToGroup]
    simp
    omega

lemma lookupKey_of_mem {β : Type} {l : List (Nat × β)} (hnd : (keysOf l).Nodup)
    {p : Nat × β} (hp : p ∈ l) : lookupKey p.1 l = some p.2 := by
  induction l with
  | nil => cases hp
  | cons q rest ih =>
    obtain ⟨qk, qv⟩ := q
    rw [keysOf, List.map_cons, List.nodup_cons] at hnd
    rcases List.mem_cons.mp hp with rfl | hp2
    · simp [lookupKey]
    · have hne : qk ≠ p.1 := by
        intro he
        have hmem : p.1 ∈ List.map Prod.fst rest := List.mem_map_of_mem Prod.fst hp2
        rw [← he] at hmem
        exact hnd.1 hmem
      rw [lookupKey, if_neg hne]
      exact ih hnd.2 hp2

lemma mem_of_lookupKey {β : Type} {l : List (Nat × β)} {c : Nat} {b : β}
    (h : lookupKey c l = some b) : (c, b) ∈ l := by
  induction l with
  | nil => simp [lookupKey] at h
  | cons q rest ih =>
    rw [lookupKey] at h
    by_cases hq : q.1 = c
    · rw [if_pos hq] at h
      injection h with h
      subst h
      subst hq
      exact List.mem_cons.mpr (Or.inl rfl)
    · rw [if_neg hq] at h
      exact List.mem_cons.mpr (Or.inr (ih h))

lemma valuesFor_enumFrom (cl : List Nat) (c : Nat) :
    ∀ j, valuesFor c ((cl.enumFrom j).map fun p => (p.2, p.1)) = membersFrom c j cl := by
  induction cl with
  | nil =>
    intro j
    rfl
  | cons c0 rest ih =>
    intro j
    by_cases h : c0 = c <;> simp [List.enumFrom, valuesFor, membersFrom, h, ih]

lemma mem_membersFrom (cl : List Nat) (c : Nat) :
    ∀ j i, i ∈ membersFrom c j cl ↔ ∃ k, i = j + k ∧ cl.get? k = some c := by
  induction cl with
  | nil =>
    intro j i
    simp [membersFrom]
  | cons c0 rest ih =>
    intro j i
    by_cases h : c0 = c
    · subst h
      rw [show membersFrom c0 j (c0 :: rest) = j :: membersFrom c0 (j + 1) rest from by
        rw [membersFrom, if_pos rfl], List.mem_cons]
      constructor
      · rintro (rfl | hi)
        · exact ⟨0, by omega, rfl⟩
        · obtain ⟨k, hk, hg⟩ := (ih (j + 1) i).mp hi
          exact ⟨k + 1, by omega, by simpa using hg⟩
      · rintro ⟨k, rfl, hg⟩
        cases k with
        | zero => left; omega
        | succ k2 =>
          right
          exact (ih (j + 1) _).mpr ⟨k2, by omega, by simpa using hg⟩
    · rw [show membersFrom c j (c0 :: rest) = membersFrom c (j + 1) rest from by
        rw [membersFrom, if_neg h]]
      rw [ih (j + 1) i]
      constructor
      · rintro ⟨k, rfl, hg⟩
        exact ⟨k + 1, by omega, by simpa using hg⟩
      · rintro ⟨k, rfl, hg⟩
        cases k with
        | zero =>
          rw [List.get?_cons_zero] at hg
          injection hg with hg
          exact absurd hg h
        | succ k2 => exact ⟨k2, by omega, by simpa using hg⟩

lemma membersFrom_bounds (cl : List Nat) (c : Nat) :
    ∀ j, (∀ x ∈ membersFrom c j cl, j ≤ x) ∧
      List.Chain' (· < ·) (membersFrom c j cl) := by
  induction cl with
  | nil =>
    intro j
    simp [membersFrom]
  | cons c0 rest ih =>
    intro j
    by_cases h : c0 = c
    · rw [show membersFrom c j (c0 :: rest) = j :: membersFrom c (j + 1) rest from by
        rw [membersFrom, if_pos h]]
      obtain ⟨hb, hch⟩ := ih (j + 1)
      constructor
      · intro x hx
        rcases List.mem_cons.mp hx with rfl | hx2
        · exact le_refl x
        · exact le_trans (by omega) (hb x hx2)
      · rw [List.chain'_cons']
        refine ⟨?_, hch⟩
        intro y hy
        have hmem : y ∈ membersFrom c (j + 1) rest := List.mem_of_mem_head? hy
        have := hb y hmem
        omega
    · rw [show membersFrom c j (c0 :: rest) = membersFrom c (j + 1) rest from by
        rw [membersFrom, if_neg h]]
      obtain ⟨hb, hch⟩ := ih (j + 1)
      exact ⟨fun x hx => le_trans (by omega) (hb x hx), hch⟩

lemma zip_snd_of_length_eq (gn : List String) (cl : List Nat) (h : gn.length = cl.length) :
    (gn.zip cl).map Prod.snd = cl :=
  List.map_snd_zip gn cl (le_of_eq h.symm)

lemma swap_enum_map_fst (cl : List Nat) :
    (cl.enum.map fun p => (p.2, p.1)).map Prod.fst = cl := by
  rw [List.map_map]
  exact List.enum_map_snd cl

lemma lookupKey_groupPairs {β : Type} (rows : List (Nat × β)) (c : Nat) :
    lookupKey c (groupPairs rows) =
      if c ∈ rows.map Prod.fst then some (valuesFor c rows) else none := by
  have hnil : lookupKey c ([] : List (Nat × List β)) = none := rfl
  exact lookupKey_groupPairsAux_none rows [] c hnil

lemma optimal_cluster_labels_lookup (gn : List String) (cl : List Nat)
    (h : gn.length = cl.length) (c : Nat) :
    lookupKey c (optimal_cluster_labels gn cl) =
      if c ∈ cl then some (membersFrom c 0 cl) else none := by
  unfold optimal_cluster_labels
  rw [zip_snd_of_length_eq gn cl h, lookupKey_groupPairs, swap_enum_map_fst,
    show cl.enum = cl.enumFrom 0 from rfl, valuesFor_enumFrom]

lemma optimal_cluster_labels_nodup (gn : List String) (cl : List Nat) :
    (keysOf (optimal_cluster_labels gn cl)).Nodup :=
  nodup_keysOf_groupPairsAux _ [] (by simp [keysOf])

lemma optimal_cluster_labels_entry (gn : List String) (cl : List Nat)
    (h : gn.length = cl.length) {p : Nat × List Nat}
    (hp : p ∈ optimal_cluster_labels gn cl) :
    p.1 ∈ cl ∧ p.2 = membersFrom p.1 0 cl := by
  have h1 := lookupKey_of_mem (optimal_cluster_labels_nodup gn cl) hp
  have h2 := optimal_cluster_labels_lookup gn cl h p.1
  rw [h1] at h2
  by_cases hc : p.1 ∈ cl
  · rw [if_pos hc] at h2
    injection h2 with h2
    exact ⟨hc, h2⟩
  · rw [if_neg hc] at h2
    cases h2

lemma optimal_cluster_labels_lenSum (gn : List String) (cl : List Nat)
    (h : gn.length = cl.length) :
    ((optimal_cluster_labels gn cl).map fun p => p.2.length).sum = cl.length := by
  unfold optimal_cluster_labels groupPairs
  rw [zip_snd_of_length_eq gn cl h, lenSum_groupPairsAux]
  simp [List.enum_length]

lemma mem_membersFrom_zero (cl : List Nat) (c i : Nat) :
    i ∈ membersFrom c 0 cl ↔ cl.get? i = some c := by
  rw [mem_membersFrom]
  constructor
  · rintro ⟨k, rfl, hg⟩
    simpa using hg
  · intro hg
    exact ⟨i, by omega, hg⟩

/-- C10: the grouping loop applied to a selected assignment vector over G
genes yields a partition of the gene indices 0..G-1: every index lies in
exactly one entry of the grouping, members of distinct cluster ids are
disjoint, the member-list lengths sum to G, and each member list is
strictly increasing (input scan order). -/
theorem c10_grouping_partition (gn : List String) (cl : List Nat)
    (h : gn.length = cl.length) :
    (∀ i, i < cl.length →
      ∃! p : Nat × List Nat, p ∈ optimal_cluster_labels gn cl ∧ i ∈ p.2) ∧
    (∀ p ∈ optimal_cluster_labels gn cl, ∀ q ∈ optimal_cluster_labels gn cl,
      p.1 ≠ q.1 → ∀ i, i ∈ p.2 → i ∉ q.2) ∧
    ((optimal_cluster_labels gn cl).map fun p => p.2.length).sum = cl.length ∧
    (∀ p ∈ optimal_cluster_labels gn cl, List.Chain' (· < ·) p.2) := by
  refine ⟨?_, ?_, optimal_cluster_labels_lenSum gn cl h, ?_⟩
  · intro i hi
    have hget : ∃ c, cl.get? i = some c := by
      cases hg : cl.get? i with
      | none =>
        have := List.get?_eq_none.mp hg
        omega
      | some c => exact ⟨c, rfl⟩
    obtain ⟨c, hc⟩ := hget
    have hcin : c ∈ cl := List.get?_mem hc
    have hlook : lookupKey c (optimal_cluster_labels gn cl) =
        some (membersFrom c 0 cl) := by
      rw [optimal_cluster_labels_lookup gn cl h, if_pos hcin]
    refine ⟨(c, membersFrom c 0 cl),
      ⟨mem_of_lookupKey hlook, (mem_membersFrom_zero cl c i).mpr hc⟩, ?_⟩
    rintro ⟨qc, ql⟩ ⟨hq, hqi⟩
    obtain ⟨hqin, hqval⟩ := optimal_cluster_labels_entry gn cl h hq
    dsimp only at hqin hqval hqi
    subst hqval
    have hgq : cl.get? i = some qc := (mem_membersFrom_zero cl qc i).mp hqi
    rw [hc] at hgq
    injection hgq with hgq
    subst hgq
    rfl
  · intro p hp q hq hne i hip hiq
    obtain ⟨_, hpv⟩ := optimal_cluster_labels_entry gn cl h hp
    obtain ⟨_, hqv⟩ := optimal_cluster_labels_entry gn cl h hq
    rw [hpv] at hip
    rw [hqv] at hiq
    have h1 := (mem_membersFrom_zero cl p.1 i).mp hip
    have h2 := (mem_membersFrom_zero cl q.1 i).mp hiq
    rw [h1] at h2
    exact hne (by injection h2)
  · intro p hp
    obtain ⟨_, hpv⟩ := optimal_cluster_labels_entry gn cl h hp
    rw [hpv]
    exact (membersFrom_bounds cl p.1 0).2

theorem c10_witness :
    (["g1", "g2", "g3", "g4"] : List String).length = ([7, 2, 7, 2] : List Nat).length ∧
    ((∀ i, i < ([7, 2, 7, 2] : List Nat).length →
      ∃! p : Nat × List Nat,
        p ∈ optimal_cluster_labels ["g1", "g2", "g3", "g4"] [7, 2, 7, 2] ∧ i ∈ p.2) ∧
    (∀ p ∈ optimal_cluster_labels ["g1", "g2", "g3", "g4"] [7, 2, 7, 2],
      ∀ q ∈ optimal_cluster_labels ["g1", "g2", "g3", "g4"] [7, 2, 7, 2],
      p.1 ≠ q.1 → ∀ i, i ∈ p.2 → i ∉ q.2) ∧
    ((optimal_cluster_labels ["g1", "g2", "g3", "g4"] [7, 2, 7, 2]).map
      fun p => p.2.length).sum = ([7, 2, 7, 2] : List Nat).length ∧
    (∀ p ∈ optimal_cluster_labels ["g1", "g2", "g3", "g4"] [7, 2, 7, 2],
      List.Chain' (· < ·) p.2)) :=
  ⟨rfl, c10_grouping_partition ["g1", "g2", "g3", "g4"] [7, 2, 7, 2] rfl⟩

/- Lemmas about the refit loop of lines 359-362. -/

lemma lookupKey_map_values {β δ : Type} (l : List (Nat × β)) (f : β → δ) (c : Nat) :
    lookupKey c (l.map fun p => (p.1, f p.2)) = (lookupKey c l).map f := by
  induction l with
  | nil => rfl
  | cons p rest ih =>
    by_cases hp : p.1 = c <;> simp [lookupKey, hp, ih]

/-- C6: after selection, every cluster of the chosen partition is refit
exactly once: the refit map has exactly one entry per cluster id of the
grouping (same keys, no duplicates), and the entry of cluster id c is one
application of update_cluster_attributes to the dp_cluster freshly built
from the final membership of c. -/
theorem c6_refit_once {κ γ : Type} (ext : Externals κ γ) (gn : List String) (cl : List Nat)
    (d : ExprData) (t : List ℚ) (itn : Nat) (u : UpdateArgs)
    (h : gn.length = cl.length) :
    keysOf (refitClusters ext (optimal_cluster_labels gn cl) d t itn u) =
      keysOf (optimal_cluster_labels gn cl) ∧
    (keysOf (refitClusters ext (optimal_cluster_labels gn cl) d t itn u)).Nodup ∧
    ∀ c ∈ cl,
      lookupKey c (refitClusters ext (optimal_cluster_labels gn cl) d t itn u) =
        some (ext.update_cluster_attributes
          (ext.dp_cluster ⟨membersFrom c 0 cl, d.sigma_n, t,
            (selectRows d.matrix (membersFrom c 0 cl)).transpose, itn⟩)
          d.matrix u) := by
  have hkeys : keysOf (refitClusters ext (optimal_cluster_labels gn cl) d t itn u) =
      keysOf (optimal_cluster_labels gn cl) := by
    unfold refitClusters keysOf
    rw [List.map_map]
    rfl
  refine ⟨hkeys, ?_, ?_⟩
  · rw [hkeys]
    exact optimal_cluster_labels_nodup gn cl
  · intro c hc
    have h1 : lookupKey c (refitClusters ext (optimal_cluster_labels gn cl) d t itn u) =
        (lookupKey c (optimal_cluster_labels gn cl)).map
          (fun b => ext.update_cluster_attributes
            (ext.dp_cluster ⟨b, d.sigma_n, t, (selectRows d.matrix b).transpose, itn⟩)
            d.matrix u) :=
      lookupKey_map_values (optimal_cluster_labels gn cl)
        (fun b => ext.update_cluster_attributes
          (ext.dp_cluster ⟨b, d.sigma_n, t, (selectRows d.matrix b).transpose, itn⟩)
          d.matrix u) c
    rw [h1, optimal_cluster_labels_lookup gn cl h, if_pos hc]
    rfl

theorem c6_witness :
    (["a", "b"] : List String).length = ([3, 3] : List Nat).length ∧
    (keysOf (refitClusters extUnit (optimal_cluster_labels ["a", "b"] [3, 3]) emptyData []
        0 (mkUpdateArgs defaultArgs emptyData 0)) =
      keysOf (optimal_cluster_labels ["a", "b"] [3, 3]) ∧
    (keysOf (refitClusters extUnit (optimal_cluster_labels ["a", "b"] [3, 3]) emptyData []
        0 (mkUpdateArgs defaultArgs emptyData 0))).Nodup ∧
    ∀ c ∈ ([3, 3] : List Nat),
      lookupKey c (refitClusters extUnit (optimal_cluster_labels ["a", "b"] [3, 3]) emptyData
          [] 0 (mkUpdateArgs defaultArgs emptyData 0)) =
        some (extUnit.update_cluster_attributes
          (extUnit.dp_cluster ⟨membersFrom c 0 [3, 3], emptyData.sigma_n, [],
            (selectRows emptyData.matrix (membersFrom c 0 [3, 3])).transpose, 0⟩)
          emptyData.matrix (mkUpdateArgs defaultArgs emptyData 0))) :=
  ⟨rfl, c6_refit_once extUnit ["a", "b"] [3, 3] emptyData [] 0
    (mkUpdateArgs defaultArgs emptyData 0) rfl⟩

end DPGP
